import Mathlib

/-!
Shallow embedding of the context-augmented chat pipeline of the Verse backend
(`app/services/rag_service.py`, `app/services/chat_service.py`,
`app/models/models.py`, `app/clients/claude_client.py`).

Rows of the relational store are records; the SQLAlchemy session is modelled
as a pair of database states (last committed state, current in-transaction
state); `add`/`flush` mutate the current state, `commit` publishes it,
`rollback` restores the committed one.  Timestamps are naturals, embeddings
are integer vectors, the embedding provider and the LLM summarizer are
functions returning `Except` (an `.error` models a raised exception).
Python's stable `sorted` and SQL `ORDER BY` are modelled with
`List.insertionSort` (stable, structural).
-/

namespace Verse

/-- Embedding vectors (pgvector `Vector(1536)`); dimension is irrelevant here. -/
abbrev Embedding := List Int

/-- Row of `chat_messages` (model `ChatMessage` in models.py): insight-anchored
chat message, with a direct `user_id` owner column. -/
structure ChatMessage where
  id : Nat
  insight_id : Nat
  user_id : Nat
  role : String
  content : String
  was_truncated : Bool
  created_at : Nat
  embedding : Option Embedding
deriving DecidableEq, Repr

/-- Row of `standalone_chats` (model `StandaloneChat`): a freeform conversation
owned by `user_id`; messages reference it via `chat_id`. -/
structure StandaloneChat where
  id : Nat
  user_id : Nat
  title : Option String
  passage_reference : Option String
  passage_text : Option String
  created_at : Nat
  updated_at : Nat
deriving DecidableEq, Repr

/-- Row of `standalone_chat_messages` (model `StandaloneChatMessage`): no user
column of its own; ownership is via the owning `StandaloneChat`. -/
structure StandaloneChatMessage where
  id : Nat
  chat_id : Nat
  role : String
  content : String
  was_truncated : Bool
  created_at : Nat
  embedding : Option Embedding
deriving DecidableEq, Repr

/-- Row of `conversation_summaries` (model `ConversationSummary`): cache entry
keyed by (conversation_type, conversation_id), storing the summary text and the
message count observed when it was generated. -/
structure ConversationSummary where
  conversation_type : String
  conversation_id : Nat
  summary_text : String
  message_count : Nat
deriving DecidableEq, Repr

/-- The relational database state: the four tables the pipeline touches, plus
the id sequence used for newly inserted rows. -/
structure DB where
  chat_messages : List ChatMessage
  standalone_chats : List StandaloneChat
  standalone_chat_messages : List StandaloneChatMessage
  conversation_summaries : List ConversationSummary
  next_id : Nat
deriving DecidableEq, Repr

/-- A SQLAlchemy `Session`: `committed` is the durable state, `cur` the
in-transaction view (pending adds/flushes included). -/
structure Session where
  committed : DB
  cur : DB
deriving DecidableEq, Repr

/-- `db.commit()`: publish the in-transaction state. -/
def Session.commit (s : Session) : Session := ⟨s.cur, s.cur⟩

/-- `db.rollback()`: discard the in-transaction state. -/
def Session.rollback (s : Session) : Session := ⟨s.committed, s.committed⟩

/-- `db.add(StandaloneChat(...)); db.flush()`: allocate the row now so its id
is available before commit. -/
def Session.addStandaloneChatFlushed (s : Session) (user_id : Nat)
    (title passage_reference passage_text : Option String) (now : Nat) :
    Session × Nat :=
  let cid := s.cur.next_id
  let row : StandaloneChat :=
    ⟨cid, user_id, title, passage_reference, passage_text, now, now⟩
  (⟨s.committed,
    { s.cur with
        standalone_chats := s.cur.standalone_chats ++ [row],
        next_id := cid + 1 }⟩, cid)

/-- `db.add(ChatMessage(...))` (id and created_at are assigned by the store
at insert time; we assign them eagerly, which is observationally the same). -/
def Session.addChatMessage (s : Session) (insight_id user_id : Nat)
    (role content : String) (was_truncated : Bool) (embedding : Option Embedding)
    (now : Nat) : Session :=
  let row : ChatMessage :=
    ⟨s.cur.next_id, insight_id, user_id, role, content, was_truncated, now, embedding⟩
  ⟨s.committed,
   { s.cur with
       chat_messages := s.cur.chat_messages ++ [row],
       next_id := s.cur.next_id + 1 }⟩

/-- `db.add(StandaloneChatMessage(...))`. -/
def Session.addStandaloneChatMessage (s : Session) (chat_id : Nat)
    (role content : String) (was_truncated : Bool) (embedding : Option Embedding)
    (now : Nat) : Session :=
  let row : StandaloneChatMessage :=
    ⟨s.cur.next_id, chat_id, role, content, was_truncated, now, embedding⟩
  ⟨s.committed,
   { s.cur with
       standalone_chat_messages := s.cur.standalone_chat_messages ++ [row],
       next_id := s.cur.next_id + 1 }⟩

/-- `chat.updated_at = func.now()` on the row with the given id. -/
def Session.touchStandaloneChat (s : Session) (chat_id now : Nat) : Session :=
  ⟨s.committed,
   { s.cur with
       standalone_chats := s.cur.standalone_chats.map fun c =>
         if c.id == chat_id then { c with updated_at := now } else c }⟩

/-- SQL `ORDER BY key ASC` / Python `sorted(..., key=...)`: stable ascending
sort by a natural-number key. -/
def sortByKeyAsc (key : α → Nat) (l : List α) : List α :=
  l.insertionSort (fun a b => key a ≤ key b)

/-- SQL `ORDER BY key DESC`: stable descending sort by a natural-number key. -/
def sortByKeyDesc (key : α → Nat) (l : List α) : List α :=
  l.insertionSort (fun a b => key b ≤ key a)

/-- Accessors a message table must provide for the generic RAG queries
(the Python code reads these via `getattr(model_class, ...)`). -/
structure MsgView (α : Type) where
  convId : α → Nat
  createdAt : α → Nat
  roleOf : α → String
  contentOf : α → String
  embeddingOf : α → Option Embedding

/-- `ChatMessage` viewed through its `insight_id` conversation column. -/
def chatMsgView : MsgView ChatMessage :=
  ⟨ChatMessage.insight_id, ChatMessage.created_at, ChatMessage.role,
   ChatMessage.content, ChatMessage.embedding⟩

/-- `StandaloneChatMessage` viewed through its `chat_id` conversation column. -/
def standaloneMsgView : MsgView StandaloneChatMessage :=
  ⟨StandaloneChatMessage.chat_id, StandaloneChatMessage.created_at,
   StandaloneChatMessage.role, StandaloneChatMessage.content,
   StandaloneChatMessage.embedding⟩

/-- The embedding provider interface (`EmbeddingClient.get_embedding`); an
`.error` models a raised exception. -/
abbrev EmbFn := String → Except String Embedding

/-- The LLM summarizer interface (`AIClient.generate_conversation_summary`):
`.error` models a raised exception, `.ok none` a falsy (empty) return. -/
abbrev AiSummaryFn := String → Except String (Option String)

/-- Configuration constants of rag_service.py. -/
def RAG_CONTEXT_LIMIT : Nat := 5

/-- Messages fetched before/after each merged match range. -/
def RAG_SURROUNDING_MESSAGES : Nat := 2

/-- Max conversation length considered for summaries. -/
def RAG_SUMMARY_MAX_MESSAGES : Nat := 50

/-- Python `s[:n]` on a string (slicing by code points). -/
def strTake (s : String) (n : Nat) : String := String.mk (s.data.take n)

/-- Python `str.capitalize()`: first character uppercased, the rest lowered. -/
def pyCapitalize (s : String) : String :=
  match s.data with
  | [] => ""
  | c :: cs => String.mk (c.toUpper :: cs.map Char.toLower)

/-- `RagService._get_relevant_messages`: generic semantic retrieval.  Filters
to rows with a non-null embedding that pass the user filter (`userOk` is the
direct `user_id` comparison or the join through `StandaloneChat`), applies the
optional exclusion filter, orders by cosine distance to the query vector and
truncates to `limit`.  Returns `[]` when the embedding client is missing or
raises (the exception is logged and swallowed). -/
def get_relevant_messages (embeddingClient : Option EmbFn)
    (dist : Embedding → Embedding → Nat) (rows : List α) (userOk : α → Bool)
    (embOf : α → Option Embedding) (exclField : α → Nat) (excl : Option Nat)
    (query : String) (limit : Nat) : List α :=
  match embeddingClient with
  | none => []
  | some f =>
    match f query with
    | .error _ => []
    | .ok qv =>
      let base := rows.filter fun m => (embOf m).isSome && userOk m
      let base :=
        match excl with
        | some v => base.filter fun m => exclField m != v
        | none => base
      (sortByKeyAsc (fun m => dist ((embOf m).getD []) qv) base).take limit

/-- `RagService._group_by_conversation`: stable grouping of retrieved messages
by conversation id (dict insertion order, as in Python's defaultdict). -/
def group_by_conversation (v : MsgView α) (relevant_messages : List α) :
    List (Nat × List α) :=
  relevant_messages.foldl
    (fun acc m =>
      let cid := v.convId m
      if acc.any (fun p => p.1 == cid) then
        acc.map fun p => if p.1 == cid then (p.1, p.2 ++ [m]) else p
      else acc ++ [(cid, [m])])
    []

/-- Result shape of `_get_merged_surrounding_messages`. -/
structure Surrounding (α : Type) where
  before : List α
  matched : List α
  between : List α
  after : List α
deriving DecidableEq, Repr

/-- `RagService._get_merged_surrounding_messages`: sorts the matches
chronologically, then runs three SQL queries against the conversation:
up to `nbefore` rows with `created_at` below the earliest match (fetched
descending, then reversed), up to `nafter` rows above the latest match
(ascending), and — only when there is more than one match — *all* rows
strictly between the earliest and latest match, ascending and unlimited.
With no matches the Python code raises IndexError on `sorted_matches[0]`,
caught by the handler which returns the empty fallback. -/
def get_merged_surrounding_messages (v : MsgView α) (rows : List α)
    (messages : List α) (conversation_id : Nat) (nbefore nafter : Nat) :
    Surrounding α :=
  match sortByKeyAsc v.createdAt messages with
  | [] => ⟨[], [], [], []⟩
  | e :: rest =>
    let earliest := e
    let latest := (e :: rest).getLastD e
    let inConv := fun m => v.convId m == conversation_id
    let fBefore := rows.filter fun m =>
      inConv m && v.createdAt m < v.createdAt earliest
    let messages_before := ((sortByKeyDesc v.createdAt fBefore).take nbefore).reverse
    let fAfter := rows.filter fun m =>
      inConv m && v.createdAt latest < v.createdAt m
    let messages_after := (sortByKeyAsc v.createdAt fAfter).take nafter
    let messages_between :=
      if 1 < (e :: rest).length then
        sortByKeyAsc v.createdAt (rows.filter fun m =>
          inConv m && v.createdAt earliest < v.createdAt m &&
            v.createdAt m < v.createdAt latest)
      else []
    ⟨messages_before, e :: rest, messages_between, messages_after⟩

/-- Per-gap selection made by `format_enhanced_rag_context` when printing the
messages between two adjacent matched messages: a strict-inequality filter of
the `messages_between` list against the two matches bounding the gap. -/
def betweenForGap (v : MsgView α) (messages_between : List α) (m1 m2 : α) :
    List α :=
  messages_between.filter fun m =>
    v.createdAt m1 < v.createdAt m && v.createdAt m < v.createdAt m2

/-- `RagService._generate_summary`: fetch the last `RAG_SUMMARY_MAX_MESSAGES`
messages of the conversation (chronological), return "Empty conversation" when
there are none (the LLM is not consulted), otherwise render `Role: content`
lines (content truncated to 200 characters) and ask the summarizer; a raised
error yields "Previous conversation", a falsy reply "Discussion about biblical
topics".  The second component records whether the LLM was invoked. -/
def generate_summary (v : MsgView α) (rows : List α) (conversation_id : Nat)
    (aiSummary : AiSummaryFn) : String × Bool :=
  let msgs := ((sortByKeyDesc v.createdAt
      (rows.filter fun m => v.convId m == conversation_id)).take
      RAG_SUMMARY_MAX_MESSAGES).reverse
  match msgs with
  | [] => ("Empty conversation", false)
  | _ :: _ =>
    let conversation_text := String.intercalate "\n"
      (msgs.map fun m => pyCapitalize (v.roleOf m) ++ ": " ++ strTake (v.contentOf m) 200)
    match aiSummary conversation_text with
    | .error _ => ("Previous conversation", true)
    | .ok none => ("Discussion about biblical topics", true)
    | .ok (some t) => (t, true)

/-- Cache key predicate of the (conversation_type, conversation_id) lookup. -/
def summaryKeyMatch (ctype : String) (cid : Nat) (c : ConversationSummary) : Bool :=
  c.conversation_type == ctype && c.conversation_id == cid

/-- ORM update of the single cached row returned by `.first()`: only the first
matching row is mutated. -/
def updateFirstSummary (l : List ConversationSummary)
    (p : ConversationSummary → Bool) (text : String) (count : Nat) :
    List ConversationSummary :=
  match l with
  | [] => []
  | c :: cs =>
    if p c then { c with summary_text := text, message_count := count } :: cs
    else c :: updateFirstSummary cs p text count

/-- `RagService._get_or_create_conversation_summary`: count the conversation's
messages, look up the (kind, id) cache entry; on a hit (stored count equals the
current count) return the cached text without touching the LLM; otherwise
generate a summary, upsert the cache entry with the new text and current count
and commit.  The Bool records whether the LLM was invoked. -/
def get_or_create_conversation_summary (v : MsgView α) (getRows : DB → List α)
    (s : Session) (conversation_type : String) (conversation_id : Nat)
    (aiSummary : AiSummaryFn) : Session × String × Bool :=
  let rows := getRows s.cur
  let current_count := (rows.filter fun m => v.convId m == conversation_id).length
  match s.cur.conversation_summaries.find?
      (summaryKeyMatch conversation_type conversation_id) with
  | some c =>
    if c.message_count == current_count then (s, c.summary_text, false)
    else
      let (summary, aiCalled) := generate_summary v rows conversation_id aiSummary
      let s1 : Session := ⟨s.committed,
        { s.cur with conversation_summaries :=
            (updateFirstSummary s.cur.conversation_summaries
              (summaryKeyMatch conversation_type conversation_id)
              summary current_count) }⟩
      (s1.commit, summary, aiCalled)
  | none =>
    let (summary, aiCalled) := generate_summary v rows conversation_id aiSummary
    let s1 : Session := ⟨s.committed,
      { s.cur with conversation_summaries := s.cur.conversation_summaries ++
          [⟨conversation_type, conversation_id, summary, current_count⟩] }⟩
    (s1.commit, summary, aiCalled)

/-- `RagService._get_conversation_date`: timestamp of the conversation's first
message, or `now` (`datetime.utcnow()`) when it has none. -/
def get_conversation_date (v : MsgView α) (rows : List α)
    (conversation_id now : Nat) : Nat :=
  match sortByKeyAsc v.createdAt
      (rows.filter fun m => v.convId m == conversation_id) with
  | [] => now
  | m :: _ => v.createdAt m

/-- One merged excerpt (`MergedRagContext` dataclass). -/
structure MergedRagContext (α : Type) where
  conversation_id : Nat
  conversation_type : String
  summary : String
  matched_messages : List α
  messages_before : List α
  messages_between : List α
  messages_after : List α
  conversation_date : Nat
deriving DecidableEq, Repr

/-- External collaborators of the RAG engine: the optional embedding client,
the summarizer, and the vector store's distance function. -/
structure RagEnv where
  embeddingClient : Option EmbFn
  aiSummary : AiSummaryFn
  dist : Embedding → Embedding → Nat

/-- Exclusion value actually passed by `get_enhanced_rag_context`: the filter
tuple is built only when `current_conversation_id` is truthy (not None and
nonzero), and applied only when its value is not None. -/
def effectiveExclusion (current_conversation_id : Option Nat) : Option Nat :=
  match current_conversation_id with
  | some v => if v ≠ 0 then some v else none
  | none => none

/-- `RagService.get_enhanced_rag_context` specialised to
`conversation_type == "insight"` (model_class `ChatMessage`, direct user_id
filter, conversation field `insight_id`): retrieve, group by conversation, and
for each group compute the summary (mutating the cache), the conversation date
and the merged surrounding messages. -/
def get_enhanced_rag_context_insight (env : RagEnv) (s : Session)
    (user_id : Nat) (query : String) (current_conversation_id : Option Nat)
    (limit : Nat) (now : Nat) :
    Session × List (MergedRagContext ChatMessage) :=
  match env.embeddingClient with
  | none => (s, [])
  | some _ =>
    let relevant := get_relevant_messages env.embeddingClient env.dist
      s.cur.chat_messages (fun m => m.user_id == user_id) (fun m => m.embedding)
      (fun m => m.insight_id) (effectiveExclusion current_conversation_id)
      query limit
    if relevant.isEmpty then (s, [])
    else
      (group_by_conversation chatMsgView relevant).foldl
        (fun acc g =>
          let (s1, summary, _) := get_or_create_conversation_summary chatMsgView
            (fun db => db.chat_messages) acc.1 "insight" g.1 env.aiSummary
          let date := get_conversation_date chatMsgView s1.cur.chat_messages g.1 now
          let sur := get_merged_surrounding_messages chatMsgView
            s1.cur.chat_messages g.2 g.1 RAG_SURROUNDING_MESSAGES
            RAG_SURROUNDING_MESSAGES
          (s1, acc.2 ++ [⟨g.1, "insight", summary, sur.matched, sur.before,
            sur.between, sur.after, date⟩]))
        (s, [])

/-- `RagService.get_enhanced_rag_context` specialised to
`conversation_type == "standalone"` (model_class `StandaloneChatMessage`,
user filter via join with `StandaloneChat`, conversation field `chat_id`). -/
def get_enhanced_rag_context_standalone (env : RagEnv) (s : Session)
    (user_id : Nat) (query : String) (current_conversation_id : Option Nat)
    (limit : Nat) (now : Nat) :
    Session × List (MergedRagContext StandaloneChatMessage) :=
  match env.embeddingClient with
  | none => (s, [])
  | some _ =>
    let relevant := get_relevant_messages env.embeddingClient env.dist
      s.cur.standalone_chat_messages
      (fun m => s.cur.standalone_chats.any fun c =>
        c.id == m.chat_id && c.user_id == user_id)
      (fun m => m.embedding) (fun m => m.chat_id)
      (effectiveExclusion current_conversation_id) query limit
    if relevant.isEmpty then (s, [])
    else
      (group_by_conversation standaloneMsgView relevant).foldl
        (fun acc g =>
          let (s1, summary, _) := get_or_create_conversation_summary
            standaloneMsgView (fun db => db.standalone_chat_messages) acc.1
            "standalone" g.1 env.aiSummary
          let date := get_conversation_date standaloneMsgView
            s1.cur.standalone_chat_messages g.1 now
          let sur := get_merged_surrounding_messages standaloneMsgView
            s1.cur.standalone_chat_messages g.2 g.1 RAG_SURROUNDING_MESSAGES
            RAG_SURROUNDING_MESSAGES
          (s1, acc.2 ++ [⟨g.1, "standalone", summary, sur.matched, sur.before,
            sur.between, sur.after, date⟩]))
        (s, [])

/-- Special marker yielded with the new chat id in SSE responses. -/
def CHAT_ID_MARKER : String := "__CHAT_ID__:"

/-- Maximum length for auto-generated chat titles. -/
def MAX_CHAT_TITLE_LENGTH : Nat := 50

/-- Title derived from the first message:
`user_message[:50] + ("..." if len(user_message) > 50 else "")`. -/
def mkChatTitle (user_message : String) : String :=
  strTake user_message MAX_CHAT_TITLE_LENGTH ++
    (if MAX_CHAT_TITLE_LENGTH < user_message.data.length then "..." else "")

/-- `ChatService._get_relevant_context`: top-K semantic retrieval over
`ChatMessage`, filtered to the requesting user's rows with a non-null
embedding, excluding the current insight when one is given. -/
def get_relevant_context (embeddingClient : Option EmbFn)
    (dist : Embedding → Embedding → Nat) (db : DB) (user_id : Nat)
    (query : String) (current_insight_id : Option Nat) (limit : Nat) :
    List ChatMessage :=
  match embeddingClient with
  | none => []
  | some f =>
    match f query with
    | .error _ => []
    | .ok qv =>
      let base := db.chat_messages.filter fun m =>
        m.user_id == user_id && m.embedding.isSome
      let base :=
        match current_insight_id with
        | some v => base.filter fun m => m.insight_id != v
        | none => base
      (sortByKeyAsc (fun m => dist (m.embedding.getD []) qv) base).take limit

/-- `ChatService._get_relevant_standalone_context`: as above over
`StandaloneChatMessage`, user-filtered via the join with `StandaloneChat`. -/
def get_relevant_standalone_context (embeddingClient : Option EmbFn)
    (dist : Embedding → Embedding → Nat) (db : DB) (user_id : Nat)
    (query : String) (current_chat_id : Option Nat) (limit : Nat) :
    List StandaloneChatMessage :=
  match embeddingClient with
  | none => []
  | some f =>
    match f query with
    | .error _ => []
    | .ok qv =>
      let base := db.standalone_chat_messages.filter fun m =>
        (db.standalone_chats.any fun c =>
          c.id == m.chat_id && c.user_id == user_id) && m.embedding.isSome
      let base :=
        match current_chat_id with
        | some v => base.filter fun m => m.chat_id != v
        | none => base
      (sortByKeyAsc (fun m => dist (m.embedding.getD []) qv) base).take limit

/-- Accumulator threaded through the provider's token stream: the buffered
response, the last truthy stop reason seen, and the pairs yielded so far. -/
structure StreamState where
  resp : String
  stop : Option String
  outs : List (String × Option String)
deriving DecidableEq, Repr

/-- One iteration of the `async for chunk, chunk_stop_reason` loop: a truthy
(non-empty) chunk is appended to the buffer and forwarded as `(chunk, None)`;
a truthy stop reason is recorded. -/
def streamStep (st : StreamState) (ev : String × Option String) : StreamState :=
  let st1 :=
    if ev.1 ≠ "" then
      { st with resp := st.resp ++ ev.1, outs := st.outs ++ [(ev.1, none)] }
    else st
  match ev.2 with
  | some r => if r ≠ "" then { st1 with stop := some r } else st1
  | none => st1

/-- The whole streaming loop over the events the provider emitted. -/
def processStream (events : List (String × Option String)) : StreamState :=
  events.foldl streamStep ⟨"", none, []⟩

/-- Events the provider emitted before terminating, plus whether it then
raised instead of finishing normally. -/
structure StreamInput where
  events : List (String × Option String)
  fails : Bool
deriving DecidableEq, Repr

/-- Observable outcome of one streaming call: the session after the call, the
pairs yielded to the caller, and whether the call raised. -/
structure StreamResult where
  session : Session
  outs : List (String × Option String)
  raised : Bool
deriving DecidableEq, Repr

/-- Best-effort embedding of the user message and the buffered reply: both
`None` when no client is configured or the first call raises; if only the
second call raises the first embedding is kept (the variables are assigned in
order inside one try block). -/
def embedPair (embeddingClient : Option EmbFn) (t1 t2 : String) :
    Option Embedding × Option Embedding :=
  match embeddingClient with
  | none => (none, none)
  | some f =>
    match f t1 with
    | .error _ => (none, none)
    | .ok v1 =>
      match f t2 with
      | .error _ => (some v1, none)
      | .ok v2 => (some v1, some v2)

/-- `ChatService.send_message_stream` (insight chat): forward and buffer the
provider's chunks; if the provider raises, roll back and re-raise; otherwise
persist the user message and the buffered assistant reply (truncation flag set
iff the stop reason is "max_tokens") in one commit, then yield the terminal
`("", stop_reason)` pair.  The read-only retrieval stage feeds only the
provider's prompt, which this model abstracts as the event list. -/
def send_message_stream (embeddingClient : Option EmbFn) (s : Session)
    (insight_id user_id : Nat) (user_message : String) (stream : StreamInput)
    (now : Nat) : StreamResult :=
  let st := processStream stream.events
  if stream.fails then ⟨s.rollback, st.outs, true⟩
  else
    let (ue, ae) := embedPair embeddingClient user_message st.resp
    let s1 := s.addChatMessage insight_id user_id "user" user_message false ue now
    let s2 := s1.addChatMessage insight_id user_id "assistant" st.resp
      (st.stop == some "max_tokens") ae now
    ⟨s2.commit, st.outs ++ [("", st.stop)], false⟩

/-- `ChatService.send_standalone_message_stream`: first verifies the chat
belongs to the user (raising ValueError otherwise, before any streaming), then
behaves like `send_message_stream`, additionally bumping the chat's
`updated_at` inside the same commit. -/
def send_standalone_message_stream (embeddingClient : Option EmbFn)
    (s : Session) (chat_id user_id : Nat) (user_message : String)
    (stream : StreamInput) (now : Nat) : StreamResult :=
  match s.cur.standalone_chats.find?
      (fun c => c.id == chat_id && c.user_id == user_id) with
  | none => ⟨s, [], true⟩
  | some _ =>
    let st := processStream stream.events
    if stream.fails then ⟨s.rollback, st.outs, true⟩
    else
      let (ue, ae) := embedPair embeddingClient user_message st.resp
      let s1 := s.addStandaloneChatMessage chat_id "user" user_message false ue now
      let s2 := s1.addStandaloneChatMessage chat_id "assistant" st.resp
        (st.stop == some "max_tokens") ae now
      let s3 := s2.touchStandaloneChat chat_id now
      ⟨s3.commit, st.outs ++ [("", st.stop)], false⟩

/-- `ChatService.create_standalone_chat_stream` (first-message flow): the
`StandaloneChat` row is added and flushed (allocating its id) and its title is
set before generation begins; on provider failure everything — including the
pre-allocated chat — is rolled back and the error re-raised; on success both
messages are persisted with the chat in one commit, then the chat-id marker
and the terminal pair are yielded.  Also returns the allocated chat id. -/
def create_standalone_chat_stream (embeddingClient : Option EmbFn)
    (s : Session) (user_id : Nat) (user_message : String)
    (passage_text passage_reference : Option String) (stream : StreamInput)
    (now : Nat) : StreamResult × Nat :=
  let (s0, cid) := s.addStandaloneChatFlushed user_id
    (some (mkChatTitle user_message)) passage_reference passage_text now
  let st := processStream stream.events
  if stream.fails then (⟨s0.rollback, st.outs, true⟩, cid)
  else
    let (ue, ae) := embedPair embeddingClient user_message st.resp
    let s1 := s0.addStandaloneChatMessage cid "user" user_message false ue now
    let s2 := s1.addStandaloneChatMessage cid "assistant" st.resp
      (st.stop == some "max_tokens") ae now
    (⟨s2.commit,
      st.outs ++ [(CHAT_ID_MARKER ++ toString cid, none), ("", st.stop)],
      false⟩, cid)

/-- `ChatService.get_standalone_chats`: the user's conversations, most
recently updated first, truncated to `limit`. -/
def get_standalone_chats (db : DB) (user_id : Nat) (limit : Nat) :
    List StandaloneChat :=
  (sortByKeyDesc StandaloneChat.updated_at
    (db.standalone_chats.filter fun c => c.user_id == user_id)).take limit

/-- Number of messages stored for one standalone conversation. -/
def countStandaloneMessages (db : DB) (chat_id : Nat) : Nat :=
  (db.standalone_chat_messages.filter fun m => m.chat_id == chat_id).length

/-- Number of messages stored for one insight conversation. -/
def countChatMessages (db : DB) (insight_id : Nat) : Nat :=
  (db.chat_messages.filter fun m => m.insight_id == insight_id).length

/-- One step of the stop-reason tracking inside the streaming loop: a truthy
stop reason replaces the accumulator. -/
def stopStep (acc : Option String) (ev : String × Option String) : Option String :=
  match ev.2 with
  | some r => if r ≠ "" then some r else acc
  | none => acc

/-- The provider's terminal stop reason as the loop computes it: the last
truthy stop reason among the emitted events. -/
def terminalStop (events : List (String × Option String)) : Option String :=
  events.foldl stopStep none

/-- The chunks the loop forwards to the caller: the non-empty first components,
in order. -/
def forwardedChunks (events : List (String × Option String)) : List String :=
  (events.map Prod.fst).filter (fun c => c ≠ "")

/-- Timestamp of `sorted_matches[0]` (the earliest match); 0 if no matches. -/
def earliestMatchTime (v : MsgView α) (ms : List α) : Nat :=
  match sortByKeyAsc v.createdAt ms with
  | [] => 0
  | e :: _ => v.createdAt e

/-- Timestamp of `sorted_matches[-1]` (the latest match); 0 if no matches. -/
def latestMatchTime (v : MsgView α) (ms : List α) : Nat :=
  match sortByKeyAsc v.createdAt ms with
  | [] => 0
  | e :: rest => v.createdAt ((e :: rest).getLastD e)

/-- The cache-hit test of `_get_or_create_conversation_summary`:
`if cached and cached.message_count == current_count`. -/
def summaryCacheHit (cache : List ConversationSummary) (ctype : String)
    (cid count : Nat) : Bool :=
  match cache.find? (summaryKeyMatch ctype cid) with
  | some c => c.message_count == count
  | none => false

/-! Concrete inputs used by the witness and counterexample theorems. -/

/-- Environment where every external call succeeds. -/
def leakEnv : RagEnv :=
  ⟨some (fun _ => .ok [1]), fun _ => .ok (some "S"), fun _ _ => 0⟩

/-- User 1's embedded message in the shared insight 10. -/
def leakMsgMine : ChatMessage := ⟨1, 10, 1, "user", "grace", false, 10, some [1]⟩

/-- User 2's earlier message in the same shared insight 10. -/
def leakMsgOther : ChatMessage := ⟨2, 10, 2, "user", "other", false, 5, none⟩

/-- Store holding both users' messages of the shared insight. -/
def leakDB : DB := ⟨[leakMsgMine, leakMsgOther], [], [], [], 3⟩

/-- A clean session over `leakDB`. -/
def leakSession : Session := ⟨leakDB, leakDB⟩

/-- Message `i` of standalone conversation 1 at time `t`. -/
def wmsg (i t : Nat) : StandaloneChatMessage := ⟨i, 1, "user", "m", false, t, none⟩

/-- Five messages of conversation 1 at times 1..5. -/
def wrows : List StandaloneChatMessage :=
  [wmsg 1 1, wmsg 2 2, wmsg 3 3, wmsg 4 4, wmsg 5 5]

/-- A standalone chat owned by user 1. -/
def wchat : StandaloneChat := ⟨1, 1, none, none, none, 0, 0⟩

/-- Store holding just that chat. -/
def wdb : DB := ⟨[], [wchat], [], [], 2⟩

/-- A clean session over `wdb`. -/
def wsession : Session := ⟨wdb, wdb⟩

/-- Two ordinary chunks followed by a natural terminal pair. -/
def wevents : List (String × Option String) :=
  [("Hello ", none), ("world", none), ("", some "end_turn")]

/-- Two ordinary chunks with no terminal pair yet. -/
def wpre : List (String × Option String) :=
  [("Hello ", none), ("world", none)]

/-- Store with one message in standalone conversation 1 and no cached
summaries. -/
def wdbMsgs : DB := ⟨[], [wchat], [wmsg 1 1], [], 2⟩

/-- A clean session over `wdbMsgs`. -/
def wsessionMsgs : Session := ⟨wdbMsgs, wdbMsgs⟩

/-- Store with no messages at all and no cached summaries. -/
def wdbEmpty : DB := ⟨[], [], [], [], 1⟩

/-- A clean session over `wdbEmpty`. -/
def wsessionEmpty : Session := ⟨wdbEmpty, wdbEmpty⟩

/-! Generic lemmas about the sort, stream-fold and cache helpers. -/

theorem mem_sortByKeyAsc {key : α → Nat} {l : List α} {a : α} :
    a ∈ sortByKeyAsc key l ↔ a ∈ l :=
  (List.perm_insertionSort _ l).mem_iff

theorem mem_sortByKeyDesc {key : α → Nat} {l : List α} {a : α} :
    a ∈ sortByKeyDesc key l ↔ a ∈ l :=
  (List.perm_insertionSort _ l).mem_iff

theorem length_sortByKeyAsc (key : α → Nat) (l : List α) :
    (sortByKeyAsc key l).length = l.length :=
  (List.perm_insertionSort _ l).length_eq

theorem nodup_sortByKeyAsc {key : α → Nat} {l : List α} (h : l.Nodup) :
    (sortByKeyAsc key l).Nodup :=
  ((List.perm_insertionSort _ l).nodup_iff).mpr h

theorem sorted_sortByKeyAsc (key : α → Nat) (l : List α) :
    List.Sorted (fun a b => key a ≤ key b) (sortByKeyAsc key l) := by
  haveI : IsTotal α (fun a b => key a ≤ key b) := ⟨fun a b => Nat.le_total _ _⟩
  haveI : IsTrans α (fun a b => key a ≤ key b) := ⟨fun _ _ _ => Nat.le_trans⟩
  exact List.sorted_insertionSort _ l

theorem sorted_cons_key_le {key : α → Nat} {e : α} {l : List α}
    (h : List.Sorted (fun a b => key a ≤ key b) (e :: l)) :
    ∀ m ∈ e :: l, key e ≤ key m := by
  intro m hm
  rcases List.mem_cons.mp hm with h1 | h1
  · exact h1 ▸ Nat.le_refl _
  · exact (List.sorted_cons.mp h).1 m h1

theorem key_le_getLastD_of_sorted {key : α → Nat} :
    ∀ (l : List α) (e : α), List.Sorted (fun a b => key a ≤ key b) (e :: l) →
      ∀ m ∈ e :: l, key m ≤ key (l.getLastD e) := by
  intro l
  induction l with
  | nil =>
    intro e _ m hm
    rcases List.mem_cons.mp hm with h1 | h1
    · rw [h1]; exact Nat.le_refl _
    · cases h1
  | cons f t ih =>
    intro e he m hm
    have hsf : List.Sorted (fun a b => key a ≤ key b) (f :: t) :=
      (List.sorted_cons.mp he).2
    rw [List.getLastD_cons]
    rcases List.mem_cons.mp hm with h1 | h1
    · subst h1
      have h2 : key f ≤ key (t.getLastD f) :=
        ih f hsf f (List.mem_cons_self f t)
      have h3 : key m ≤ key f :=
        (List.sorted_cons.mp he).1 f (List.mem_cons_self f t)
      exact Nat.le_trans h3 h2
    · exact ih f hsf m h1

theorem getLastD_cons_mem : ∀ (l : List α) (e : α), l.getLastD e ∈ e :: l := by
  intro l
  induction l with
  | nil => intro e; exact List.mem_cons_self _ _
  | cons f t ih =>
    intro e
    rw [List.getLastD_cons]
    exact List.mem_cons_of_mem e (ih f)

theorem sorted_get_le {key : α → Nat} {l : List α}
    (h : List.Sorted (fun a b => key a ≤ key b) l) {i j : Fin l.length}
    (hij : i ≤ j) : key (l.get i) ≤ key (l.get j) := by
  rcases lt_or_eq_of_le hij with h1 | h1
  · exact h.rel_get_of_lt h1
  · rw [h1]

theorem strJoin_foldl (l : List String) :
    ∀ a : String, l.foldl (fun r s => r ++ s) a = a ++ String.join l := by
  induction l with
  | nil => intro a; rw [String.join]; simp [String.append_empty]
  | cons s t ih =>
    intro a
    show t.foldl (fun r s => r ++ s) (a ++ s) = _
    rw [ih (a ++ s), String.append_assoc]
    rw [String.join]
    show _ = a ++ t.foldl (fun r s => r ++ s) ("" ++ s)
    rw [ih ("" ++ s), String.empty_append]
    rfl

theorem strJoin_cons (s : String) (t : List String) :
    String.join (s :: t) = s ++ String.join t := by
  rw [String.join]
  show t.foldl (fun r s => r ++ s) ("" ++ s) = _
  rw [strJoin_foldl t ("" ++ s), String.empty_append]

theorem forwardedChunks_cons (ev : String × Option String)
    (rest : List (String × Option String)) :
    forwardedChunks (ev :: rest) =
      if ev.1 ≠ "" then ev.1 :: forwardedChunks rest else forwardedChunks rest := by
  unfold forwardedChunks
  by_cases h : ev.1 = "" <;> simp [h, List.filter_cons]

theorem stopStep_or (acc : Option String) (ev : String × Option String) :
    stopStep acc ev = (stopStep none ev).or acc := by
  unfold stopStep
  cases ev.2 with
  | none => simp
  | some r =>
    by_cases hr : r = "" <;> simp [hr]

theorem foldl_stopStep_or (events : List (String × Option String)) :
    ∀ acc, events.foldl stopStep acc = (terminalStop events).or acc := by
  induction events with
  | nil => intro acc; simp [terminalStop]
  | cons ev rest ih =>
    intro acc
    show rest.foldl stopStep (stopStep acc ev) = _
    rw [ih (stopStep acc ev), stopStep_or]
    have h2 : terminalStop (ev :: rest) = (terminalStop rest).or (stopStep none ev) := by
      show rest.foldl stopStep (stopStep none ev) = _
      rw [ih (stopStep none ev)]
    rw [h2, Option.or_assoc]

theorem streamStep_eq (st : StreamState) (ev : String × Option String) :
    streamStep st ev =
      ⟨if ev.1 ≠ "" then st.resp ++ ev.1 else st.resp,
       stopStep st.stop ev,
       st.outs ++ if ev.1 ≠ "" then [(ev.1, none)] else []⟩ := by
  unfold streamStep stopStep
  by_cases h : ev.1 = "" <;> cases hso : ev.2 <;> simp [h] <;> split <;> simp

theorem processStream_foldl (events : List (String × Option String)) :
    ∀ st : StreamState,
      events.foldl streamStep st =
        ⟨st.resp ++ String.join (forwardedChunks events),
         (terminalStop events).or st.stop,
         st.outs ++ (forwardedChunks events).map (fun c => (c, none))⟩ := by
  induction events with
  | nil =>
    intro st
    show st = _
    cases st with
    | mk r so o => simp [forwardedChunks, terminalStop, String.join, String.append_empty]
  | cons ev rest ih =>
    intro st
    show rest.foldl streamStep (streamStep st ev) = _
    rw [ih (streamStep st ev), streamStep_eq, forwardedChunks_cons]
    have hstop : (terminalStop rest).or (stopStep st.stop ev) =
        (terminalStop (ev :: rest)).or st.stop := by
      have h2 : terminalStop (ev :: rest) = (terminalStop rest).or (stopStep none ev) := by
        show rest.foldl stopStep (stopStep none ev) = _
        rw [foldl_stopStep_or rest (stopStep none ev)]
      rw [h2, Option.or_assoc, ← stopStep_or]
    by_cases h : ev.1 = ""
    · simp only [h, ne_eq, not_true_eq_false, if_false, StreamState.mk.injEq]
      exact ⟨trivial, hstop, by simp⟩
    · simp only [ne_eq, h, not_false_eq_true, if_true, StreamState.mk.injEq]
      refine ⟨?_, hstop, ?_⟩
      · rw [strJoin_cons, String.append_assoc]
      · simp [List.append_assoc]

theorem processStream_eq (events : List (String × Option String)) :
    processStream events =
      ⟨String.join (forwardedChunks events), terminalStop events,
       (forwardedChunks events).map (fun c => (c, none))⟩ := by
  unfold processStream
  rw [processStream_foldl]
  simp [String.empty_append, Option.or_none]

theorem find?_updateFirstSummary (ctype : String) (cid : Nat) (text : String)
    (count : Nat) :
    ∀ (l : List ConversationSummary) (c : ConversationSummary),
      l.find? (summaryKeyMatch ctype cid) = some c →
      (updateFirstSummary l (summaryKeyMatch ctype cid) text count).find?
          (summaryKeyMatch ctype cid) =
        some { c with summary_text := text, message_count := count } := by
  intro l
  induction l with
  | nil => intro c h; simp [List.find?] at h
  | cons a t ih =>
    intro c h
    by_cases hpa : summaryKeyMatch ctype cid a = true
    · rw [List.find?_cons_of_pos _ hpa] at h
      injection h with h
      subst h
      unfold updateFirstSummary
      rw [if_pos hpa]
      exact List.find?_cons_of_pos _ hpa
    · rw [List.find?_cons_of_neg _ hpa] at h
      unfold updateFirstSummary
      rw [if_neg hpa, List.find?_cons_of_neg _ hpa]
      exact ih c h

theorem rollback_eq_self {s : Session} (hclean : s.cur = s.committed) :
    s.rollback = s := by
  cases s with
  | mk c k =>
    have hkc : k = c := hclean
    unfold Session.rollback
    rw [hkc]

theorem send_message_stream_fail (emb : Option EmbFn) (s : Session)
    (insight_id user_id : Nat) (user_message : String)
    (events : List (String × Option String)) (now : Nat) :
    send_message_stream emb s insight_id user_id user_message ⟨events, true⟩ now =
      ⟨s.rollback, (forwardedChunks events).map (fun c => (c, none)), true⟩ := by
  unfold send_message_stream
  rw [processStream_eq]
  rfl

theorem send_message_stream_ok (emb : Option EmbFn) (s : Session)
    (insight_id user_id : Nat) (user_message : String)
    (events : List (String × Option String)) (now : Nat) :
    send_message_stream emb s insight_id user_id user_message ⟨events, false⟩ now =
      ⟨Session.commit
        (Session.addChatMessage
          (Session.addChatMessage s insight_id user_id "user" user_message false
            (embedPair emb user_message (String.join (forwardedChunks events))).1 now)
          insight_id user_id "assistant" (String.join (forwardedChunks events))
          (terminalStop events == some "max_tokens")
          (embedPair emb user_message (String.join (forwardedChunks events))).2 now),
       (forwardedChunks events).map (fun c => (c, none)) ++ [("", terminalStop events)],
       false⟩ := by
  unfold send_message_stream
  rw [processStream_eq]
  rfl

theorem send_standalone_message_stream_missing (emb : Option EmbFn) (s : Session)
    (chat_id user_id : Nat) (user_message : String) (stream : StreamInput)
    (now : Nat)
    (hc : s.cur.standalone_chats.find?
        (fun c => c.id == chat_id && c.user_id == user_id) = none) :
    send_standalone_message_stream emb s chat_id user_id user_message stream now =
      ⟨s, [], true⟩ := by
  unfold send_standalone_message_stream
  rw [hc]

theorem send_standalone_message_stream_fail (emb : Option EmbFn) (s : Session)
    (chat_id user_id : Nat) (user_message : String)
    (events : List (String × Option String)) (now : Nat) (c : StandaloneChat)
    (hc : s.cur.standalone_chats.find?
        (fun c => c.id == chat_id && c.user_id == user_id) = some c) :
    send_standalone_message_stream emb s chat_id user_id user_message
        ⟨events, true⟩ now =
      ⟨s.rollback, (forwardedChunks events).map (fun c => (c, none)), true⟩ := by
  unfold send_standalone_message_stream
  rw [hc, processStream_eq]
  rfl

theorem send_standalone_message_stream_ok (emb : Option EmbFn) (s : Session)
    (chat_id user_id : Nat) (user_message : String)
    (events : List (String × Option String)) (now : Nat) (c : StandaloneChat)
    (hc : s.cur.standalone_chats.find?
        (fun c => c.id == chat_id && c.user_id == user_id) = some c) :
    send_standalone_message_stream emb s chat_id user_id user_message
        ⟨events, false⟩ now =
      ⟨Session.commit
        (Session.touchStandaloneChat
          (Session.addStandaloneChatMessage
            (Session.addStandaloneChatMessage s chat_id "user" user_message false
              (embedPair emb user_message (String.join (forwardedChunks events))).1 now)
            chat_id "assistant" (String.join (forwardedChunks events))
            (terminalStop events == some "max_tokens")
            (embedPair emb user_message (String.join (forwardedChunks events))).2 now)
          chat_id now),
       (forwardedChunks events).map (fun c => (c, none)) ++ [("", terminalStop events)],
       false⟩ := by
  unfold send_standalone_message_stream
  rw [hc, processStream_eq]
  rfl

theorem create_standalone_chat_stream_fail (emb : Option EmbFn) (s : Session)
    (user_id : Nat) (user_message : String)
    (passage_text passage_reference : Option String)
    (events : List (String × Option String)) (now : Nat) :
    create_standalone_chat_stream emb s user_id user_message passage_text
        passage_reference ⟨events, true⟩ now =
      (⟨((s.addStandaloneChatFlushed user_id (some (mkChatTitle user_message))
          passage_reference passage_text now).1).rollback,
        (forwardedChunks events).map (fun c => (c, none)), true⟩,
       s.cur.next_id) := by
  unfold create_standalone_chat_stream
  rw [processStream_eq]
  rfl

/-! Claim theorems. -/

/-- Claim C2: for the streaming pipelines `send_message_stream` and
`send_standalone_message_stream`, if the provider stream raises at any point
before persistence, no messages are written at all — after the call raises,
the conversation's message count equals its count before the call — and the
error propagates to the caller. -/
theorem C2_stream_error_atomicity (emb : Option EmbFn) (s : Session)
    (insight_id user_id chat_id : Nat) (user_message : String)
    (stream : StreamInput) (now : Nat)
    (hfail : stream.fails = true) (hclean : s.cur = s.committed) :
    (send_message_stream emb s insight_id user_id user_message stream now).raised
        = true ∧
    (send_message_stream emb s insight_id user_id user_message stream now).session
        = s ∧
    countChatMessages
        (send_message_stream emb s insight_id user_id user_message
          stream now).session.committed insight_id
      = countChatMessages s.committed insight_id ∧
    (send_standalone_message_stream emb s chat_id user_id user_message
        stream now).raised = true ∧
    (send_standalone_message_stream emb s chat_id user_id user_message
        stream now).session = s ∧
    countStandaloneMessages
        (send_standalone_message_stream emb s chat_id user_id user_message
          stream now).session.committed chat_id
      = countStandaloneMessages s.committed chat_id := by
  obtain ⟨events, fl⟩ := stream
  have hfl : fl = true := hfail
  subst hfl
  have hroll := rollback_eq_self hclean
  have h1 := send_message_stream_fail emb s insight_id user_id user_message events now
  rw [h1, hroll]
  cases hf : s.cur.standalone_chats.find?
      (fun c => c.id == chat_id && c.user_id == user_id) with
  | none =>
    rw [send_standalone_message_stream_missing emb s chat_id user_id
      user_message ⟨events, true⟩ now hf]
    simp
  | some c =>
    rw [send_standalone_message_stream_fail emb s chat_id user_id
      user_message events now c hf, hroll]
    simp

/-- Witness for C2 at a concrete failing stream over a clean session. -/
theorem C2_stream_error_atomicity_witness :
    (StreamInput.mk wpre true).fails = true ∧
    (send_standalone_message_stream none wsession 1 1 "hi" ⟨wpre, true⟩ 9).session
      = wsession := by
  refine ⟨rfl, ?_⟩
  exact (C2_stream_error_atomicity none wsession 1 1 1 "hi" ⟨wpre, true⟩ 9
    rfl rfl).2.2.2.2.1

/-- Claim C5: for every completed stream, the persisted assistant message's
truncation flag equals whether the provider's terminal stop reason is
"max_tokens": that stop reason persists `was_truncated = true`, any other
persists `was_truncated = false`. -/
theorem C5_truncation_flag (emb : Option EmbFn) (s : Session)
    (chat_id user_id : Nat) (user_message : String)
    (pre : List (String × Option String)) (r : String) (now : Nat)
    (hchat : (s.cur.standalone_chats.find?
        (fun c => c.id == chat_id && c.user_id == user_id)).isSome)
    (hpre : ∀ ev ∈ pre, ev.2 = none) (hr : r ≠ "") :
    (send_standalone_message_stream emb s chat_id user_id user_message
        ⟨pre ++ [("", some r)], false⟩ now).raised = false ∧
    ((send_standalone_message_stream emb s chat_id user_id user_message
        ⟨pre ++ [("", some r)], false⟩ now).session.committed.standalone_chat_messages.getLast?).map
        (fun m => m.was_truncated)
      = some (r == "max_tokens") := by
  obtain ⟨c, hc⟩ := Option.isSome_iff_exists.mp hchat
  have hstop : terminalStop (pre ++ [("", some r)]) = some r := by
    unfold terminalStop
    rw [List.foldl_append]
    have hnone : pre.foldl stopStep none = none := by
      induction pre with
      | nil => rfl
      | cons ev t ih =>
        have hev : ev.2 = none := hpre ev (List.mem_cons_self _ _)
        show t.foldl stopStep (stopStep none ev) = none
        rw [show stopStep none ev = none by unfold stopStep; rw [hev]]
        exact ih (fun e he => hpre e (List.mem_cons_of_mem _ he))
    rw [hnone]
    show stopStep none ("", some r) = some r
    unfold stopStep
    simp [hr]
  rw [send_standalone_message_stream_ok emb s chat_id user_id user_message
    (pre ++ [("", some r)]) now c hc]
  refine ⟨rfl, ?_⟩
  unfold Session.commit Session.touchStandaloneChat Session.addStandaloneChatMessage
  simp only [List.getLast?_concat, Option.map_some']
  rw [hstop]
  rfl

/-- Witness for C5 with a stream ending in the "max_tokens" stop reason. -/
theorem C5_truncation_flag_witness :
    (∀ ev ∈ wpre, ev.2 = none) ∧
    ((send_standalone_message_stream none wsession 1 1 "hi"
        ⟨wpre ++ [("", some "max_tokens")], false⟩ 9).session.committed.standalone_chat_messages.getLast?).map
        (fun m => m.was_truncated) = some true := by
  refine ⟨by decide, ?_⟩
  exact (C5_truncation_flag none wsession 1 1 "hi" wpre "max_tokens" 9
    (by decide) (by decide) (by decide)).2

/-- Claim C7: during streaming, every non-empty chunk emitted by the provider
is forwarded unchanged and appended to the buffer, with no database writes
before the stream is exhausted; the persisted assistant message's content is
the in-order concatenation of exactly the forwarded chunks, and the terminal
`("", stop_reason)` pair is forwarded only after the commit succeeds (on
failure no terminal pair is emitted and the committed state is untouched). -/
theorem C7_forward_buffer_commit (emb : Option EmbFn) (s : Session)
    (insight_id chat_id user_id : Nat) (user_message : String)
    (events : List (String × Option String)) (fl : Bool) (now : Nat)
    (hchat : (s.cur.standalone_chats.find?
        (fun c => c.id == chat_id && c.user_id == user_id)).isSome) :
    (fl = false →
      (send_message_stream emb s insight_id user_id user_message
          ⟨events, fl⟩ now).outs
        = (forwardedChunks events).map (fun c => (c, none))
            ++ [("", terminalStop events)] ∧
      ((send_message_stream emb s insight_id user_id user_message
          ⟨events, fl⟩ now).session.committed.chat_messages.getLast?).map
          (fun m => m.content)
        = some (String.join (forwardedChunks events)) ∧
      (send_message_stream emb s insight_id user_id user_message
          ⟨events, fl⟩ now).raised = false ∧
      (send_standalone_message_stream emb s chat_id user_id user_message
          ⟨events, fl⟩ now).outs
        = (forwardedChunks events).map (fun c => (c, none))
            ++ [("", terminalStop events)] ∧
      ((send_standalone_message_stream emb s chat_id user_id user_message
          ⟨events, fl⟩ now).session.committed.standalone_chat_messages.getLast?).map
          (fun m => m.content)
        = some (String.join (forwardedChunks events)) ∧
      (send_standalone_message_stream emb s chat_id user_id user_message
          ⟨events, fl⟩ now).raised = false) ∧
    (fl = true →
      (send_message_stream emb s insight_id user_id user_message
          ⟨events, fl⟩ now).outs
        = (forwardedChunks events).map (fun c => (c, none)) ∧
      (send_message_stream emb s insight_id user_id user_message
          ⟨events, fl⟩ now).session.committed = s.committed ∧
      (send_message_stream emb s insight_id user_id user_message
          ⟨events, fl⟩ now).raised = true ∧
      (send_standalone_message_stream emb s chat_id user_id user_message
          ⟨events, fl⟩ now).outs
        = (forwardedChunks events).map (fun c => (c, none)) ∧
      (send_standalone_message_stream emb s chat_id user_id user_message
          ⟨events, fl⟩ now).session.committed = s.committed ∧
      (send_standalone_message_stream emb s chat_id user_id user_message
          ⟨events, fl⟩ now).raised = true) := by
  obtain ⟨c, hc⟩ := Option.isSome_iff_exists.mp hchat
  constructor
  · intro hfl
    subst hfl
    rw [send_message_stream_ok emb s insight_id user_id user_message events now,
      send_standalone_message_stream_ok emb s chat_id user_id user_message
        events now c hc]
    refine ⟨rfl, ?_, rfl, rfl, ?_, rfl⟩
    · unfold Session.commit Session.addChatMessage
      simp [List.getLast?_concat]
    · unfold Session.commit Session.touchStandaloneChat Session.addStandaloneChatMessage
      simp [List.getLast?_concat]
  · intro hfl
    subst hfl
    rw [send_message_stream_fail emb s insight_id user_id user_message events now,
      send_standalone_message_stream_fail emb s chat_id user_id user_message
        events now c hc]
    exact ⟨rfl, rfl, rfl, rfl, rfl, rfl⟩

/-- Witness for C7 on a concrete two-chunk stream with a natural stop. -/
theorem C7_forward_buffer_commit_witness :
    ((wsession.cur.standalone_chats.find?
        (fun c => c.id == 1 && c.user_id == 1)).isSome) = true ∧
    (send_standalone_message_stream none wsession 1 1 "hi"
        ⟨wevents, false⟩ 9).outs
      = [("Hello ", none), ("world", none), ("", some "end_turn")] := by
  refine ⟨by decide, ?_⟩
  have h := ((C7_forward_buffer_commit none wsession 1 1 1 "hi" wevents false 9
    (by decide)).1 rfl).2.2.2.1
  rw [h]
  decide

/-- Claim C3: in `create_standalone_chat_stream`, the `StandaloneChat` row is
allocated (flushed for an id) before generation begins; if the provider stream
raises before persistence, the pre-allocated chat is rolled back along with
both messages, so a subsequent listing of the user's conversations does not
include the new conversation, while the chunks emitted before the error were
still forwarded to the caller followed by the propagated error. -/
theorem C3_preallocated_chat_rollback (emb : Option EmbFn) (s : Session)
    (user_id : Nat) (user_message : String) (pt pr : Option String)
    (events : List (String × Option String)) (now limit : Nat)
    (hclean : s.cur = s.committed)
    (hfresh : ∀ c ∈ s.committed.standalone_chats, c.id ≠ s.cur.next_id) :
    (create_standalone_chat_stream emb s user_id user_message pt pr
        ⟨events, true⟩ now).2 = s.cur.next_id ∧
    (∃ c ∈ ((s.addStandaloneChatFlushed user_id (some (mkChatTitle user_message))
        pr pt now).1).cur.standalone_chats,
      c.id = (create_standalone_chat_stream emb s user_id user_message pt pr
        ⟨events, true⟩ now).2) ∧
    (create_standalone_chat_stream emb s user_id user_message pt pr
        ⟨events, true⟩ now).1.raised = true ∧
    (create_standalone_chat_stream emb s user_id user_message pt pr
        ⟨events, true⟩ now).1.outs
      = (forwardedChunks events).map (fun c => (c, none)) ∧
    (create_standalone_chat_stream emb s user_id user_message pt pr
        ⟨events, true⟩ now).1.session = s ∧
    get_standalone_chats (create_standalone_chat_stream emb s user_id
        user_message pt pr ⟨events, true⟩ now).1.session.committed user_id limit
      = get_standalone_chats s.committed user_id limit ∧
    (∀ c ∈ get_standalone_chats (create_standalone_chat_stream emb s user_id
        user_message pt pr ⟨events, true⟩ now).1.session.committed user_id limit,
      c.id ≠ (create_standalone_chat_stream emb s user_id user_message pt pr
        ⟨events, true⟩ now).2) := by
  rw [create_standalone_chat_stream_fail emb s user_id user_message pt pr
    events now]
  have hsess : (((s.addStandaloneChatFlushed user_id
      (some (mkChatTitle user_message)) pr pt now).1).rollback) = s := by
    cases s with
    | mk cdb k =>
      have hkc : k = cdb := hclean
      unfold Session.addStandaloneChatFlushed Session.rollback
      rw [hkc]
  refine ⟨rfl, ?_, rfl, rfl, hsess, by rw [hsess], ?_⟩
  · exact ⟨⟨s.cur.next_id, user_id, some (mkChatTitle user_message), pr, pt,
      now, now⟩, List.mem_append_right _ (List.mem_singleton.mpr rfl), rfl⟩
  · intro c hcmem
    rw [hsess] at hcmem
    have h1 : c ∈ sortByKeyDesc StandaloneChat.updated_at
        (s.committed.standalone_chats.filter fun c => c.user_id == user_id) :=
      List.mem_of_mem_take hcmem
    have h2 : c ∈ s.committed.standalone_chats :=
      (List.mem_filter.mp (mem_sortByKeyDesc.mp h1)).1
    exact hfresh c h2

/-- Witness for C3: two chunks then a provider error on a clean session. -/
theorem C3_preallocated_chat_rollback_witness :
    (∀ c ∈ wsession.committed.standalone_chats, c.id ≠ wsession.cur.next_id) ∧
    (create_standalone_chat_stream none wsession 1 "hi" none none
        ⟨wpre, true⟩ 9).1.session = wsession := by
  refine ⟨by decide, ?_⟩
  exact (C3_preallocated_chat_rollback none wsession 1 "hi" none none wpre 9 50
    rfl (by decide)).2.2.2.2.1

theorem length_sortByKeyDesc (key : α → Nat) (l : List α) :
    (sortByKeyDesc key l).length = l.length :=
  (List.perm_insertionSort _ l).length_eq

/-- Claim C8: for every retrieval call, if the embedding client is
unconfigured or the embedding call raises, retrieval returns an empty list
without raising: `get_enhanced_rag_context` returns `[]` (leaving the session
untouched) and the chat-side retrieval helpers return `[]`; errors at this
boundary are swallowed, never propagated. -/
theorem C8_embedding_failure_degrades (dist : Embedding → Embedding → Nat)
    (db : DB) (s : Session) (user_id : Nat) (query : String)
    (excl : Option Nat) (limit now : Nat) (ai : AiSummaryFn) (f : EmbFn)
    (e : String) (hf : f query = .error e) :
    get_relevant_context none dist db user_id query excl limit = [] ∧
    get_relevant_standalone_context none dist db user_id query excl limit = [] ∧
    (get_enhanced_rag_context_insight ⟨none, ai, dist⟩ s user_id query excl
      limit now).2 = [] ∧
    (get_enhanced_rag_context_standalone ⟨none, ai, dist⟩ s user_id query excl
      limit now).2 = [] ∧
    (get_enhanced_rag_context_insight ⟨none, ai, dist⟩ s user_id query excl
      limit now).1 = s ∧
    get_relevant_context (some f) dist db user_id query excl limit = [] ∧
    get_relevant_standalone_context (some f) dist db user_id query excl limit = [] ∧
    (get_enhanced_rag_context_insight ⟨some f, ai, dist⟩ s user_id query excl
      limit now).2 = [] ∧
    (get_enhanced_rag_context_standalone ⟨some f, ai, dist⟩ s user_id query excl
      limit now).2 = [] ∧
    (get_enhanced_rag_context_insight ⟨some f, ai, dist⟩ s user_id query excl
      limit now).1 = s := by
  refine ⟨rfl, rfl, rfl, rfl, rfl, ?_, ?_, ?_, ?_, ?_⟩
  · unfold get_relevant_context
    dsimp only
    rw [hf]
  · unfold get_relevant_standalone_context
    dsimp only
    rw [hf]
  · unfold get_enhanced_rag_context_insight get_relevant_messages
    dsimp only
    rw [hf]
    rfl
  · unfold get_enhanced_rag_context_standalone get_relevant_messages
    dsimp only
    rw [hf]
    rfl
  · unfold get_enhanced_rag_context_insight get_relevant_messages
    dsimp only
    rw [hf]
    rfl

/-- Witness for C8 with an embedding client that raises on the query. -/
theorem C8_embedding_failure_degrades_witness :
    ((fun _ => Except.error "boom" : EmbFn) "grace" = Except.error "boom") ∧
    (get_enhanced_rag_context_insight
      ⟨some (fun _ => Except.error "boom"), fun _ => Except.ok (some "S"),
       fun _ _ => 0⟩ leakSession 1 "grace" none 5 0).2 = [] := by
  refine ⟨rfl, ?_⟩
  exact (C8_embedding_failure_degrades (fun _ _ => 0) leakDB leakSession 1
    "grace" none 5 0 (fun _ => Except.ok (some "S"))
    (fun _ => Except.error "boom") "boom" rfl).2.2.2.2.2.2.2.1

/-- Claim C9: whenever summary generation fails or the conversation has no
messages, the summary operation returns a fixed fallback string ("Previous
conversation" when the summarizer raises, "Empty conversation" for a
conversation with no messages) and, being a total function of the summarizer's
outcome, never propagates an error to its caller. -/
theorem C9_summary_fallbacks (v : MsgView α) (rows : List α) (cid : Nat)
    (ai : AiSummaryFn) (e : String) :
    ((rows.filter fun m => v.convId m == cid) = [] →
      generate_summary v rows cid ai = ("Empty conversation", false)) ∧
    ((∀ t, ai t = .error e) → (rows.filter fun m => v.convId m == cid) ≠ [] →
      (generate_summary v rows cid ai).1 = "Previous conversation") := by
  constructor
  · intro h
    unfold generate_summary
    rw [h]
    rfl
  · intro hai h
    have h1 : sortByKeyDesc v.createdAt (rows.filter fun m => v.convId m == cid)
        ≠ [] := by
      intro h0
      apply h
      have h2 := congrArg List.length h0
      rw [length_sortByKeyDesc] at h2
      exact List.length_eq_zero.mp h2
    have h3 : ((sortByKeyDesc v.createdAt
        (rows.filter fun m => v.convId m == cid)).take
        RAG_SUMMARY_MAX_MESSAGES).reverse ≠ [] := by
      intro h0
      rcases List.take_eq_nil_iff.mp (List.reverse_eq_nil_iff.mp h0) with h4 | h4
      · exact absurd h4 (by unfold RAG_SUMMARY_MAX_MESSAGES; omega)
      · exact h1 h4
    obtain ⟨x, xs, hxs⟩ := List.exists_cons_of_ne_nil h3
    unfold generate_summary
    rw [hxs]
    dsimp only
    rw [hai]

/-- Witness for C9: an empty conversation, and a raising summarizer on a
non-empty one. -/
theorem C9_summary_fallbacks_witness :
    (wrows.filter fun m => standaloneMsgView.convId m == 2) = [] ∧
    generate_summary standaloneMsgView wrows 2
      (fun _ => Except.ok (some "S")) = ("Empty conversation", false) ∧
    (generate_summary standaloneMsgView wrows 1
      (fun _ => Except.error "boom")).1 = "Previous conversation" := by
  refine ⟨by decide, ?_, ?_⟩
  · exact (C9_summary_fallbacks standaloneMsgView wrows 2
      (fun _ => Except.ok (some "S")) "boom").1 (by decide)
  · exact (C9_summary_fallbacks standaloneMsgView wrows 1
      (fun _ => Except.error "boom") "boom").2 (fun t => rfl) (by decide)

theorem get_or_create_hit (v : MsgView α) (getRows : DB → List α)
    (s : Session) (ctype : String) (cid : Nat) (ai : AiSummaryFn)
    (c : ConversationSummary)
    (hfind : s.cur.conversation_summaries.find? (summaryKeyMatch ctype cid)
      = some c)
    (hcnt : c.message_count
      = ((getRows s.cur).filter fun m => v.convId m == cid).length) :
    get_or_create_conversation_summary v getRows s ctype cid ai
      = (s, c.summary_text, false) := by
  unfold get_or_create_conversation_summary
  rw [hfind]
  dsimp only
  rw [if_pos (by simp [hcnt])]

theorem get_or_create_stale (v : MsgView α) (getRows : DB → List α)
    (s : Session) (ctype : String) (cid : Nat) (ai : AiSummaryFn)
    (c : ConversationSummary)
    (hfind : s.cur.conversation_summaries.find? (summaryKeyMatch ctype cid)
      = some c)
    (hcnt : c.message_count
      ≠ ((getRows s.cur).filter fun m => v.convId m == cid).length) :
    get_or_create_conversation_summary v getRows s ctype cid ai
      = (Session.commit ⟨s.committed,
          { s.cur with conversation_summaries :=
              (updateFirstSummary s.cur.conversation_summaries
                (summaryKeyMatch ctype cid)
                (generate_summary v (getRows s.cur) cid ai).1
                ((getRows s.cur).filter fun m => v.convId m == cid).length) }⟩,
         generate_summary v (getRows s.cur) cid ai) := by
  unfold get_or_create_conversation_summary
  rw [hfind]
  dsimp only
  rw [if_neg (by simp [hcnt])]

theorem get_or_create_absent (v : MsgView α) (getRows : DB → List α)
    (s : Session) (ctype : String) (cid : Nat) (ai : AiSummaryFn)
    (hfind : s.cur.conversation_summaries.find? (summaryKeyMatch ctype cid)
      = none) :
    get_or_create_conversation_summary v getRows s ctype cid ai
      = (Session.commit ⟨s.committed,
          { s.cur with conversation_summaries :=
              s.cur.conversation_summaries ++
                [⟨ctype, cid, (generate_summary v (getRows s.cur) cid ai).1,
                  ((getRows s.cur).filter fun m => v.convId m == cid).length⟩] }⟩,
         generate_summary v (getRows s.cur) cid ai) := by
  unfold get_or_create_conversation_summary
  rw [hfind]

theorem summaryKeyMatch_self (ctype : String) (cid : Nat) (text : String)
    (count : Nat) :
    summaryKeyMatch ctype cid ⟨ctype, cid, text, count⟩ = true := by
  simp [summaryKeyMatch]

/-- Claim C6 (amended): calling the summary component twice in a row for the
same conversation with no new message in between makes no LLM call on the
second invocation and returns the cached text unchanged; on a miss (no entry,
or stored count differs from the current count) the summary generator runs and
the cache entry is upserted and committed with the new text and current count,
and the LLM is invoked whenever the conversation has at least one message (an
empty conversation caches its fixed fallback text without an LLM call); on a
hit nothing is written and no LLM call occurs. -/
theorem C6_summary_cache (v : MsgView α) (getRows : DB → List α)
    (s : Session) (ctype : String) (cid : Nat) (ai ai2 : AiSummaryFn)
    (hrows : ∀ (db : DB) (cs : List ConversationSummary),
      getRows { db with conversation_summaries := cs } = getRows db) :
    ((get_or_create_conversation_summary v getRows
        (get_or_create_conversation_summary v getRows s ctype cid ai).1
        ctype cid ai2).2.2 = false ∧
      (get_or_create_conversation_summary v getRows
        (get_or_create_conversation_summary v getRows s ctype cid ai).1
        ctype cid ai2).2.1
        = (get_or_create_conversation_summary v getRows s ctype cid ai).2.1 ∧
      (get_or_create_conversation_summary v getRows
        (get_or_create_conversation_summary v getRows s ctype cid ai).1
        ctype cid ai2).1
        = (get_or_create_conversation_summary v getRows s ctype cid ai).1) ∧
    (summaryCacheHit s.cur.conversation_summaries ctype cid
        ((getRows s.cur).filter fun m => v.convId m == cid).length = false →
      ((get_or_create_conversation_summary v getRows s ctype cid
          ai).1.cur.conversation_summaries.find? (summaryKeyMatch ctype cid)).map
          (fun c => (c.summary_text, c.message_count))
        = some ((get_or_create_conversation_summary v getRows s ctype cid ai).2.1,
            ((getRows s.cur).filter fun m => v.convId m == cid).length) ∧
      (get_or_create_conversation_summary v getRows s ctype cid ai).1.committed
        = (get_or_create_conversation_summary v getRows s ctype cid ai).1.cur ∧
      (((getRows s.cur).filter fun m => v.convId m == cid) ≠ [] →
        (get_or_create_conversation_summary v getRows s ctype cid ai).2.2 = true)) ∧
    (summaryCacheHit s.cur.conversation_summaries ctype cid
        ((getRows s.cur).filter fun m => v.convId m == cid).length = true →
      (get_or_create_conversation_summary v getRows s ctype cid ai).1 = s ∧
      (get_or_create_conversation_summary v getRows s ctype cid ai).2.2 = false) := by
  have hgen : ∀ (ai3 : AiSummaryFn) (rows : List α),
      (rows.filter fun m => v.convId m == cid) ≠ [] →
      (generate_summary v rows cid ai3).2 = true := by
    intro ai3 rows hne
    have h1 : sortByKeyDesc v.createdAt (rows.filter fun m => v.convId m == cid)
        ≠ [] := by
      intro h0
      apply hne
      have h2 := congrArg List.length h0
      rw [length_sortByKeyDesc] at h2
      exact List.length_eq_zero.mp h2
    have h3 : ((sortByKeyDesc v.createdAt
        (rows.filter fun m => v.convId m == cid)).take
        RAG_SUMMARY_MAX_MESSAGES).reverse ≠ [] := by
      intro h0
      rcases List.take_eq_nil_iff.mp (List.reverse_eq_nil_iff.mp h0) with h4 | h4
      · exact absurd h4 (by unfold RAG_SUMMARY_MAX_MESSAGES; omega)
      · exact h1 h4
    obtain ⟨x, xs, hxs⟩ := List.exists_cons_of_ne_nil h3
    unfold generate_summary
    rw [hxs]
    dsimp only
    cases ai3 ("\n".intercalate ((x :: xs).map fun m =>
        pyCapitalize (v.roleOf m) ++ ": " ++ strTake (v.contentOf m) 200)) with
    | error _ => rfl
    | ok o => cases o <;> rfl
  cases hfind : s.cur.conversation_summaries.find? (summaryKeyMatch ctype cid) with
  | some c =>
    by_cases hcnt : c.message_count
        = ((getRows s.cur).filter fun m => v.convId m == cid).length
    · have h1 := get_or_create_hit v getRows s ctype cid ai c hfind hcnt
      have h2 := get_or_create_hit v getRows s ctype cid ai2 c hfind hcnt
      have hhit : summaryCacheHit s.cur.conversation_summaries ctype cid
          ((getRows s.cur).filter fun m => v.convId m == cid).length = true := by
        unfold summaryCacheHit
        rw [hfind]
        simp [hcnt]
      rw [h1]
      refine ⟨⟨by rw [h2], by rw [h2], by rw [h2]⟩, ?_, fun _ => ⟨rfl, rfl⟩⟩
      intro hmiss
      rw [hhit] at hmiss
      cases hmiss
    · have h1 := get_or_create_stale v getRows s ctype cid ai c hfind hcnt
      have hmiss : summaryCacheHit s.cur.conversation_summaries ctype cid
          ((getRows s.cur).filter fun m => v.convId m == cid).length = false := by
        unfold summaryCacheHit
        rw [hfind]
        simp [hcnt]
      have hrows1 : getRows (get_or_create_conversation_summary v getRows s
          ctype cid ai).1.cur = getRows s.cur := by
        rw [h1]
        exact hrows s.cur _
      have hfind1 : (get_or_create_conversation_summary v getRows s ctype cid
          ai).1.cur.conversation_summaries.find? (summaryKeyMatch ctype cid)
          = some { c with
              summary_text := (generate_summary v (getRows s.cur) cid ai).1,
              message_count :=
                ((getRows s.cur).filter fun m => v.convId m == cid).length } := by
        rw [h1]
        exact find?_updateFirstSummary ctype cid _ _
          s.cur.conversation_summaries c hfind
      have h2 := get_or_create_hit v getRows
        (get_or_create_conversation_summary v getRows s ctype cid ai).1
        ctype cid ai2 _ hfind1 (by rw [hrows1])
      refine ⟨⟨by rw [h2], ?_, by rw [h2]⟩, ?_, ?_⟩
      · rw [h2, h1]
      · intro _
        refine ⟨?_, by rw [h1]; rfl, fun hne => by rw [h1]; exact hgen ai _ hne⟩
        rw [hfind1, h1]
        rfl
      · intro hhit
        rw [hhit] at hmiss
        cases hmiss
  | none =>
    have h1 := get_or_create_absent v getRows s ctype cid ai hfind
    have hmiss : summaryCacheHit s.cur.conversation_summaries ctype cid
        ((getRows s.cur).filter fun m => v.convId m == cid).length = false := by
      unfold summaryCacheHit
      rw [hfind]
    have hrows1 : getRows (get_or_create_conversation_summary v getRows s
        ctype cid ai).1.cur = getRows s.cur := by
      rw [h1]
      exact hrows s.cur _
    have hfind1 : (get_or_create_conversation_summary v getRows s ctype cid
        ai).1.cur.conversation_summaries.find? (summaryKeyMatch ctype cid)
        = some ⟨ctype, cid, (generate_summary v (getRows s.cur) cid ai).1,
            ((getRows s.cur).filter fun m => v.convId m == cid).length⟩ := by
      rw [h1]
      show (s.cur.conversation_summaries ++ [_]).find? _ = _
      rw [List.find?_append, hfind, Option.none_or]
      simp [summaryKeyMatch_self]
    have h2 := get_or_create_hit v getRows
      (get_or_create_conversation_summary v getRows s ctype cid ai).1
      ctype cid ai2 _ hfind1 (by rw [hrows1])
    refine ⟨⟨by rw [h2], ?_, by rw [h2]⟩, ?_, ?_⟩
    · rw [h2, h1]
    · intro _
      refine ⟨?_, by rw [h1]; rfl, fun hne => by rw [h1]; exact hgen ai _ hne⟩
      rw [hfind1, h1]
      rfl
    · intro hhit
      rw [hhit] at hmiss
      cases hmiss

/-- Counterexample to C6 as stated: for a conversation with no messages and no
cache entry (a cache miss), the LLM is not invoked — the fixed text is cached
without consulting the summarizer. -/
theorem C6_summary_cache_counterexample :
    wsessionEmpty.cur.conversation_summaries.find?
      (summaryKeyMatch "standalone" 1) = none ∧
    (get_or_create_conversation_summary standaloneMsgView
      (fun db => db.standalone_chat_messages) wsessionEmpty "standalone" 1
      (fun _ => Except.ok (some "S"))).2.2 = false := by
  exact ⟨rfl, rfl⟩

/-- Witness for C6: on a store with one message, the second of two successive
calls makes no LLM call even with a raising summarizer. -/
theorem C6_summary_cache_witness :
    (∀ (db : DB) (cs : List ConversationSummary),
      ({ db with conversation_summaries := cs }).standalone_chat_messages
        = db.standalone_chat_messages) ∧
    (get_or_create_conversation_summary standaloneMsgView
      (fun db => db.standalone_chat_messages)
      (get_or_create_conversation_summary standaloneMsgView
        (fun db => db.standalone_chat_messages) wsessionMsgs "standalone" 1
        (fun _ => Except.ok (some "S"))).1
      "standalone" 1 (fun _ => Except.error "boom")).2.2 = false := by
  refine ⟨fun db cs => rfl, ?_⟩
  exact (C6_summary_cache standaloneMsgView
    (fun db => db.standalone_chat_messages) wsessionMsgs "standalone" 1
    (fun _ => Except.ok (some "S")) (fun _ => Except.error "boom")
    (fun db cs => rfl)).1.1

theorem matched_eq (v : MsgView α) (rows ms : List α) (cid nb na : Nat)
    (e : α) (rest : List α)
    (hsm : sortByKeyAsc v.createdAt ms = e :: rest) :
    (get_merged_surrounding_messages v rows ms cid nb na).matched = e :: rest := by
  unfold get_merged_surrounding_messages
  rw [hsm]

theorem between_eq (v : MsgView α) (rows ms : List α) (cid nb na : Nat)
    (e : α) (rest : List α)
    (hsm : sortByKeyAsc v.createdAt ms = e :: rest) (hrest : rest ≠ []) :
    (get_merged_surrounding_messages v rows ms cid nb na).between =
      sortByKeyAsc v.createdAt (rows.filter fun m =>
        v.convId m == cid && decide (v.createdAt e < v.createdAt m) &&
          decide (v.createdAt m < v.createdAt (rest.getLastD e))) := by
  unfold get_merged_surrounding_messages
  rw [hsm]
  dsimp only
  rw [if_pos (by simp [List.length_pos.mpr hrest])]
  simp only [List.getLastD_cons]

theorem between_eq_single (v : MsgView α) (rows ms : List α) (cid nb na : Nat)
    (e : α) (hsm : sortByKeyAsc v.createdAt ms = [e]) :
    (get_merged_surrounding_messages v rows ms cid nb na).between = [] := by
  unfold get_merged_surrounding_messages
  rw [hsm]
  rfl

/-- Claim C4: for every conversation group handled by
`_get_merged_surrounding_messages` with at least two matched messages, the
returned `between` list contains exactly the messages of that conversation
whose timestamp is strictly between the earliest and latest match timestamp,
each exactly once, in ascending timestamp order and with no count limit; with
exactly one matched message, `between` is empty. -/
theorem C4_between_no_gap (v : MsgView α) (rows ms : List α) (cid nb na : Nat)
    (hnd : rows.Nodup) (hms : ms ≠ []) :
    (∃ m0 ∈ ms, v.createdAt m0 = earliestMatchTime v ms) ∧
    (∃ m1 ∈ ms, v.createdAt m1 = latestMatchTime v ms) ∧
    (∀ m ∈ ms, earliestMatchTime v ms ≤ v.createdAt m ∧
      v.createdAt m ≤ latestMatchTime v ms) ∧
    (2 ≤ ms.length →
      (∀ x, x ∈ (get_merged_surrounding_messages v rows ms cid nb na).between ↔
        (x ∈ rows ∧ v.convId x = cid ∧
          earliestMatchTime v ms < v.createdAt x ∧
          v.createdAt x < latestMatchTime v ms)) ∧
      (get_merged_surrounding_messages v rows ms cid nb na).between.Nodup ∧
      List.Sorted (fun a b => v.createdAt a ≤ v.createdAt b)
        (get_merged_surrounding_messages v rows ms cid nb na).between) ∧
    (ms.length = 1 →
      (get_merged_surrounding_messages v rows ms cid nb na).between = []) := by
  have hlen := length_sortByKeyAsc v.createdAt ms
  have hne : sortByKeyAsc v.createdAt ms ≠ [] := by
    intro h0
    apply hms
    rw [h0] at hlen
    exact List.length_eq_zero.mp hlen.symm
  obtain ⟨e, rest, hsm⟩ := List.exists_cons_of_ne_nil hne
  have hsorted : List.Sorted (fun a b => v.createdAt a ≤ v.createdAt b)
      (e :: rest) := by
    rw [← hsm]
    exact sorted_sortByKeyAsc v.createdAt ms
  have hmem : ∀ m, m ∈ e :: rest ↔ m ∈ ms := by
    intro m
    rw [← hsm]
    exact mem_sortByKeyAsc
  have hE : earliestMatchTime v ms = v.createdAt e := by
    unfold earliestMatchTime
    rw [hsm]
  have hL : latestMatchTime v ms = v.createdAt (rest.getLastD e) := by
    unfold latestMatchTime
    rw [hsm]
    dsimp only
    rw [List.getLastD_cons]
  refine ⟨⟨e, (hmem e).mp (List.mem_cons_self e rest), hE.symm⟩,
    ⟨rest.getLastD e, (hmem _).mp (getLastD_cons_mem rest e), hL.symm⟩,
    ?_, ?_, ?_⟩
  · intro m hm
    have hm' := (hmem m).mpr hm
    rw [hE, hL]
    exact ⟨sorted_cons_key_le hsorted m hm',
      key_le_getLastD_of_sorted rest e hsorted m hm'⟩
  · intro h2
    have hrest : rest ≠ [] := by
      intro h0
      rw [h0] at hsm
      rw [hsm] at hlen
      simp at hlen
      omega
    have hb := between_eq v rows ms cid nb na e rest hsm hrest
    refine ⟨?_, ?_, ?_⟩
    · intro x
      rw [hb, mem_sortByKeyAsc, List.mem_filter, hE, hL]
      simp [and_assoc]
    · rw [hb]
      exact nodup_sortByKeyAsc (hnd.filter _)
    · rw [hb]
      exact sorted_sortByKeyAsc _ _
  · intro h1
    have hrest : rest = [] := by
      rw [hsm] at hlen
      rw [h1] at hlen
      simp at hlen
      exact hlen
    rw [hrest] at hsm
    exact between_eq_single v rows ms cid nb na e hsm

/-- Witness for C4: five messages at times 1..5 in conversation 1, matches at
times 1 and 5; the message at time 3 is produced in `between`. -/
theorem C4_between_no_gap_witness :
    wrows.Nodup ∧
    wmsg 3 3 ∈ (get_merged_surrounding_messages standaloneMsgView wrows
      [wmsg 1 1, wmsg 5 5] 1 2 2).between := by
  refine ⟨by decide, ?_⟩
  have h := ((C4_between_no_gap standaloneMsgView wrows [wmsg 1 1, wmsg 5 5]
    1 2 2 (by decide) (by decide)).2.2.2.1 (by decide)).1 (wmsg 3 3)
  exact h.mpr (by decide)

/-- Claim C10 (implicit): when a group's matches include a message strictly
between the earliest and latest match timestamps, that message appears both in
the returned `matched` list and in the `between` list (the lists overlap), and
the formatter's per-gap strict-inequality filter never selects it for any
adjacent pair of matches, which is the only reason it is not printed twice. -/
theorem C10_middle_match_overlap (v : MsgView α) (rows ms : List α)
    (cid nb na : Nat) (m : α) (hm : m ∈ ms) (hmr : m ∈ rows)
    (hconv : v.convId m = cid)
    (hlo : ∃ x ∈ ms, v.createdAt x < v.createdAt m)
    (hhi : ∃ y ∈ ms, v.createdAt m < v.createdAt y) :
    m ∈ (get_merged_surrounding_messages v rows ms cid nb na).matched ∧
    m ∈ (get_merged_surrounding_messages v rows ms cid nb na).between ∧
    (∀ (i : Nat) (x y : α),
      (get_merged_surrounding_messages v rows ms cid nb na).matched.get? i
        = some x →
      (get_merged_surrounding_messages v rows ms cid nb na).matched.get? (i + 1)
        = some y →
      m ∉ betweenForGap v
        (get_merged_surrounding_messages v rows ms cid nb na).between x y) := by
  have hlen := length_sortByKeyAsc v.createdAt ms
  have hne : sortByKeyAsc v.createdAt ms ≠ [] := by
    intro h0
    apply (by rintro rfl; exact absurd hm (List.not_mem_nil m) : ms ≠ [])
    rw [h0] at hlen
    exact List.length_eq_zero.mp hlen.symm
  obtain ⟨e, rest, hsm⟩ := List.exists_cons_of_ne_nil hne
  have hsorted : List.Sorted (fun a b => v.createdAt a ≤ v.createdAt b)
      (e :: rest) := by
    rw [← hsm]
    exact sorted_sortByKeyAsc v.createdAt ms
  have hmem : ∀ a, a ∈ e :: rest ↔ a ∈ ms := by
    intro a
    rw [← hsm]
    exact mem_sortByKeyAsc
  obtain ⟨x0, hx0, hx0lt⟩ := hlo
  obtain ⟨y0, hy0, hy0lt⟩ := hhi
  have hrest : rest ≠ [] := by
    intro h0
    have hmm := (hmem m).mpr hm
    have hxx := (hmem x0).mpr hx0
    rw [h0] at hmm hxx
    rcases List.mem_singleton.mp hmm with rfl
    rcases List.mem_singleton.mp hxx with rfl
    exact absurd hx0lt (lt_irrefl _)
  have hlo2 : v.createdAt e < v.createdAt m :=
    Nat.lt_of_le_of_lt (sorted_cons_key_le hsorted x0 ((hmem x0).mpr hx0)) hx0lt
  have hhi2 : v.createdAt m < v.createdAt (rest.getLastD e) :=
    Nat.lt_of_lt_of_le hy0lt
      (key_le_getLastD_of_sorted rest e hsorted y0 ((hmem y0).mpr hy0))
  have hmat := matched_eq v rows ms cid nb na e rest hsm
  have hb := between_eq v rows ms cid nb na e rest hsm hrest
  refine ⟨?_, ?_, ?_⟩
  · rw [hmat]
    exact (hmem m).mpr hm
  · rw [hb, mem_sortByKeyAsc, List.mem_filter]
    refine ⟨hmr, ?_⟩
    simp only [Bool.and_eq_true, beq_iff_eq, decide_eq_true_eq]
    exact ⟨⟨hconv, hlo2⟩, hhi2⟩
  · intro i x y hx hy hgap
    rw [hmat] at hx hy
    obtain ⟨hxlt, hgx⟩ := List.get?_eq_some.mp hx
    obtain ⟨hylt, hgy⟩ := List.get?_eq_some.mp hy
    unfold betweenForGap at hgap
    have hcond := (List.mem_filter.mp hgap).2
    simp only [Bool.and_eq_true, decide_eq_true_eq] at hcond
    obtain ⟨hc1, hc2⟩ := hcond
    obtain ⟨j, hj⟩ := List.mem_iff_get.mp ((hmem m).mpr hm)
    rcases Nat.lt_or_ge j.val (i + 1) with hcase | hcase
    · have hle : j ≤ (⟨i, hxlt⟩ : Fin (e :: rest).length) :=
        Fin.le_def.mpr (Nat.lt_succ_iff.mp hcase)
      have := sorted_get_le hsorted hle
      rw [hj, hgx] at this
      exact absurd hc1 (Nat.not_lt.mpr this)
    · have hle : (⟨i + 1, hylt⟩ : Fin (e :: rest).length) ≤ j :=
        Fin.le_def.mpr hcase
      have := sorted_get_le hsorted hle
      rw [hj, hgy] at this
      exact absurd hc2 (Nat.not_lt.mpr this)

/-- Witness for C10: matches at times 1, 3 and 5; the middle match at time 3
is in both lists and excluded from the first gap's filter. -/
theorem C10_middle_match_overlap_witness :
    wmsg 3 3 ∈ ([wmsg 1 1, wmsg 3 3, wmsg 5 5] : List StandaloneChatMessage) ∧
    wmsg 3 3 ∈ (get_merged_surrounding_messages standaloneMsgView wrows
      [wmsg 1 1, wmsg 3 3, wmsg 5 5] 1 2 2).between := by
  refine ⟨by decide, ?_⟩
  exact (C10_middle_match_overlap standaloneMsgView wrows
    [wmsg 1 1, wmsg 3 3, wmsg 5 5] 1 2 2 (wmsg 3 3) (by decide) (by decide)
    (by decide) ⟨wmsg 1 1, by decide, by decide⟩
    ⟨wmsg 5 5, by decide, by decide⟩).2.1

/-- Claim C1 is violated by the code: `_get_merged_surrounding_messages`
filters the surrounding-message queries only by the conversation column
(`insight_id`), never by `user_id`, while insights are shared across users.
Evaluating the insight-side retrieval engine on a store where users 1 and 2
both have messages in the shared insight 10 — user 1's message embedded and
matched, user 2's message just before it — returns user 2's message inside
`messages_before` of user 1's merged context, crossing the user boundary.
The matched messages themselves are user-filtered, so the leak is exactly in
the surrounding messages. -/
theorem C1_cross_user_leak :
    ((get_enhanced_rag_context_insight leakEnv leakSession 1 "grace" none 5
        0).2.map (fun c => c.messages_before.map fun m => m.user_id))
      = [[2]] ∧
    (∃ ctx ∈ (get_enhanced_rag_context_insight leakEnv leakSession 1 "grace"
        none 5 0).2,
      ∃ m ∈ ctx.messages_before, m.user_id ≠ 1) ∧
    (∀ ctx ∈ (get_enhanced_rag_context_insight leakEnv leakSession 1 "grace"
        none 5 0).2,
      ∀ m ∈ ctx.matched_messages, m.user_id = 1) := by
  refine ⟨by decide, by decide, by decide⟩

end Verse
